import Mathlib

/-!
Verification of the trade-relay signal bot core (signal_bot.py, channels.py,
config.py, formatter.py, mt5_manager.py) against its natural-language
specification.  Prices are modelled as rationals, Python dicts as association
lists, and Python exceptions (`TypeError`, `UnboundLocalError`) as an explicit
error component of the result.
-/

namespace TradeRelay

/-- Trade direction as computed by `SignalFormatter.determine_direction`. -/
inductive Direction where
  | long
  | short
  | unknown
deriving DecidableEq

/-- Trade status.  The code only ever stores the strings "PENDING_ENTRY" and
"ACTIVE" in `Trade.status`; terminal outcomes are represented by removal from
the registry, not by a stored status. -/
inductive Status where
  | pending_entry
  | active
deriving DecidableEq

/-- The first component of `TradeMonitor._check_exit_hit`'s return value. -/
inductive ExitStatus where
  | SL
  | TP1
  | TP1_FINAL
  | TP2
  | BREAKEVEN
deriving DecidableEq

/-- Python exceptions that can escape the admission pipeline. -/
inductive PyError where
  | typeError
  | unboundLocalError
deriving DecidableEq

/-- The structured record produced by `GeminiClient.parse_signal_message`
(the fields of the Gemini JSON schema that the pipeline reads).
`entry_price` and `sl` are required by the schema; `tp1` and `tp2` are
optional. -/
structure SignalData where
  is_signal : Bool
  symbol : String
  entry_price : ℚ
  sl : ℚ
  tp1 : Option ℚ
  tp2 : Option ℚ
deriving DecidableEq

/-- BotConfig.ENTRY_TOLERANCE_PIPS. -/
def ENTRY_TOLERANCE_PIPS : ℚ := 5

/-- BotConfig.ENTRY_CONFIRM_TICKS. -/
def ENTRY_CONFIRM_TICKS : Nat := 3

/-- BotConfig.SYMBOL_PIP_VALUES, derived from BotConfig.SYMBOLS. -/
def SYMBOL_PIP_VALUES : List (String × ℚ) :=
  [("US30", 1), ("US100", 1), ("US500", 1), ("XAUUSD", 1/10),
   ("GBPJPY", 1/100), ("GBPUSD", 1/10000), ("EURUSD", 1/10000),
   ("USOIL", 1), ("DE30", 1), ("BTCUSD", 1)]

/-- Python `str.upper()` restricted to the ASCII symbol strings the bot uses. -/
def upperAscii (s : String) : String := ⟨s.data.map Char.toUpper⟩

/-- `BotConfig.SYMBOL_PIP_VALUES.get(symbol.upper(), 0.0001)` as used by
`TradeMonitor._get_price_tolerance` and `SignalFormatter.calculate_pips`. -/
def pipValue (symbol : String) : ℚ :=
  match SYMBOL_PIP_VALUES.find? (fun e => e.1 == upperAscii symbol) with
  | some e => e.2
  | none => 1/10000

/-- `TradeMonitor._get_price_tolerance`: entry tolerance in price units. -/
def price_tolerance (symbol : String) : ℚ := ENTRY_TOLERANCE_PIPS * pipValue symbol

/-- `SignalFormatter.determine_direction`. -/
def determine_direction (entry sl : ℚ) : Direction :=
  if entry > sl then .long
  else if entry < sl then .short
  else .unknown

/-- State of one trade (`Trade` in signal_bot.py). -/
structure Trade where
  message_id : Nat
  symbol : String
  entry : ℚ
  sl : ℚ
  tp1 : Option ℚ
  tp2 : Option ℚ
  direction : Direction
  status : Status
  tp1_hit : Bool
  entry_executed_price : Option ℚ
  entry_confirmation_count : Nat
  signal_price : Option ℚ
  waiting_for_pullback : Bool
deriving DecidableEq

/-- `Trade.__init__`.  `current_price` is the value returned by
`TradeMonitor.get_symbol_price`, which is `None` when the price feed is
unavailable.  In that case the comparisons `current_price > self.entry`
(LONG branch) and `current_price < self.entry` (SHORT branch) raise a
`TypeError` in Python; for an UNKNOWN direction both conditions
short-circuit before the comparison and construction succeeds. -/
def Trade.init (message_id : Nat) (data : SignalData) (current_price : Option ℚ) :
    Except PyError Trade :=
  let dir := determine_direction data.entry_price data.sl
  let base : Trade :=
    { message_id := message_id
      symbol := data.symbol
      entry := data.entry_price
      sl := data.sl
      tp1 := data.tp1
      tp2 := data.tp2
      direction := dir
      status := .pending_entry
      tp1_hit := false
      entry_executed_price := none
      entry_confirmation_count := 0
      signal_price := current_price
      waiting_for_pullback := false }
  match dir, current_price with
  | .long, none => .error .typeError
  | .short, none => .error .typeError
  | .long, some p => .ok { base with waiting_for_pullback := decide (p > data.entry_price) }
  | .short, some p => .ok { base with waiting_for_pullback := decide (p < data.entry_price) }
  | .unknown, _ => .ok base

/-- `TradeMonitor._check_entry_hit`: updates the confirmation counter and the
pullback flag, and reports whether the (updated) counter has reached
`ENTRY_CONFIRM_TICKS`. -/
def check_entry_hit (trade : Trade) (price : ℚ) : Trade × Bool :=
  let tolerance := price_tolerance trade.symbol
  let t :=
    match trade.direction with
    | .long =>
      if trade.waiting_for_pullback then
        if price ≤ trade.entry + tolerance then
          { trade with waiting_for_pullback := false,
                       entry_confirmation_count := trade.entry_confirmation_count + 1 }
        else
          { trade with entry_confirmation_count := 0 }
      else
        if price ≥ trade.entry - tolerance then
          { trade with entry_confirmation_count := trade.entry_confirmation_count + 1 }
        else
          { trade with entry_confirmation_count := 0 }
    | .short =>
      if trade.waiting_for_pullback then
        if price ≥ trade.entry - tolerance then
          { trade with waiting_for_pullback := false,
                       entry_confirmation_count := trade.entry_confirmation_count + 1 }
        else
          { trade with entry_confirmation_count := 0 }
      else
        if price ≤ trade.entry + tolerance then
          { trade with entry_confirmation_count := trade.entry_confirmation_count + 1 }
        else
          { trade with entry_confirmation_count := 0 }
    | .unknown => trade
  (t, decide (t.entry_confirmation_count ≥ ENTRY_CONFIRM_TICKS))

/-- Python truthiness test `trade.tp and price >= trade.tp` for a LONG trade:
a take-profit level participates only when it is present and nonzero
(`0.0` is falsy in Python). -/
def tp_trig_long (tp : Option ℚ) (price : ℚ) : Bool :=
  match tp with
  | none => false
  | some v => decide (v ≠ 0) && decide (price ≥ v)

/-- Python truthiness test `trade.tp and price <= trade.tp` for a SHORT trade. -/
def tp_trig_short (tp : Option ℚ) (price : ℚ) : Bool :=
  match tp with
  | none => false
  | some v => decide (v ≠ 0) && decide (price ≤ v)

/-- `TradeMonitor._check_exit_hit`: returns the exit status (if any) and the
trade with `tp1_hit` latched when the TP1 branch fires. -/
def check_exit_hit (trade : Trade) (price : ℚ) : Option ExitStatus × Trade :=
  let has_tp2 := trade.tp2.isSome
  match trade.direction with
  | .long =>
    if trade.tp1_hit = false ∧ price ≤ trade.sl then (some .SL, trade)
    else if tp_trig_long trade.tp2 price then (some .TP2, trade)
    else if tp_trig_long trade.tp1 price ∧ trade.tp1_hit = false then
      (if has_tp2 then some .TP1 else some .TP1_FINAL, { trade with tp1_hit := true })
    else if has_tp2 ∧ trade.tp1_hit = true ∧ price ≤ trade.entry then
      (some .BREAKEVEN, trade)
    else (none, trade)
  | .short =>
    if trade.tp1_hit = false ∧ price ≥ trade.sl then (some .SL, trade)
    else if tp_trig_short trade.tp2 price then (some .TP2, trade)
    else if tp_trig_short trade.tp1 price ∧ trade.tp1_hit = false then
      (if has_tp2 then some .TP1 else some .TP1_FINAL, { trade with tp1_hit := true })
    else if has_tp2 ∧ trade.tp1_hit = true ∧ price ≥ trade.entry then
      (some .BREAKEVEN, trade)
    else (none, trade)
  | .unknown => (none, trade)

/-- Processing of one trade inside `TradeMonitor.run_monitoring_cycle`, once a
price is available: returns the updated trade, the notification sent (the
status string passed to `_send_update`), and whether the symbol is appended to
`trades_to_remove` (a terminal outcome). -/
def process_trade (trade : Trade) (price : ℚ) : Trade × Option String × Bool :=
  match trade.status with
  | .pending_entry =>
    let r := check_entry_hit trade price
    if r.2 then
      ({ r.1 with status := .active, entry_executed_price := some price },
       some "EXECUTED", false)
    else (r.1, none, false)
  | .active =>
    let r := check_exit_hit trade price
    match r.1 with
    | some .SL => (r.2, some "SL", true)
    | some .TP1 => (r.2, some "TP1", false)
    | some .TP1_FINAL => (r.2, some "TP1", true)
    | some .TP2 => (r.2, some "TP2", true)
    | some .BREAKEVEN => (r.2, some "BREAKEVEN", true)
    | none => (r.2, none, false)

/-- The trade registry `TradeMonitor.active_trades`: a Python dict keyed by
symbol, modelled as an association list whose key list is kept duplicate-free
(which is what a dict guarantees). -/
abbrev Registry := List (String × Trade)

/-- Outcome of processing one registry entry during a monitoring cycle. -/
structure Processed where
  symbol : String
  trade : Trade
  notify : Option String
  remove : Bool
deriving DecidableEq

/-- One iteration of the `for symbol, trade in list(self.active_trades.items())`
loop in `run_monitoring_cycle`: an unavailable price (`None`) skips the trade
entirely (`continue`). -/
def cycle_entry (feed : String → Option ℚ) (e : String × Trade) : Processed :=
  match feed e.1 with
  | none => { symbol := e.1, trade := e.2, notify := none, remove := false }
  | some p =>
    let r := process_trade e.2 p
    { symbol := e.1, trade := r.1, notify := r.2.1, remove := r.2.2 }

/-- `TradeMonitor.run_monitoring_cycle`: process every entry, then delete every
symbol collected in `trades_to_remove`.  Returns the new registry and the list
of notifications sent (symbol paired with the status string). -/
def run_monitoring_cycle (reg : Registry) (feed : String → Option ℚ) :
    Registry × List (String × String) :=
  let processed := reg.map (cycle_entry feed)
  let toRemove := (processed.filter (fun x => x.remove)).map (fun x => x.symbol)
  ((processed.filter (fun x => x.symbol ∉ toRemove)).map (fun x => (x.symbol, x.trade)),
   processed.filterMap (fun x => x.notify.map (fun s => (x.symbol, s))))

/-- `TradeMonitor.add_trade`: dict assignment `active_trades[trade.symbol] = trade`
(replaces in place when the key exists, appends otherwise). -/
def add_trade (reg : Registry) (t : Trade) : Registry :=
  if reg.any (fun e => e.1 == t.symbol) then
    reg.map (fun e => if e.1 = t.symbol then (t.symbol, t) else e)
  else
    reg ++ [(t.symbol, t)]

/-- `del self.active_trades[symbol]`. -/
def del_symbol (reg : Registry) (s : String) : Registry :=
  reg.filter (fun e => e.1 ≠ s)

/-- `self.trade_monitor.active_trades.get(symbol)`. -/
def lookup_trade (reg : Registry) (s : String) : Option Trade :=
  (reg.find? (fun e => e.1 == s)).map (fun e => e.2)

/-- `TargetChannel.save_message`.  `clientSend` is the behaviour of the
underlying `client.send_message` call: `some i` means it returned a message
with id `i`; `none` means it raised.  In the latter case the `except` branch
executes `return message` with the local variable `message` never assigned,
which raises `UnboundLocalError` instead of returning. -/
def target_save_message (clientSend : Option Nat) : Except PyError (Option Nat) :=
  match clientSend with
  | some i => .ok (some i)
  | none => .error .unboundLocalError

/-- Result of `ProcessingUnit._handle_single_message`: the registry and
processed-id list after the call (including mutations made before any
exception), the message ids that received a cancellation reply, the trade
registered (if any), and the Python exception that escaped the handler
(if any). -/
structure HandleResult where
  registry : Registry
  processed : List Nat
  cancels : List Nat
  admitted : Option Trade
  error : Option PyError
deriving DecidableEq

/-- `ProcessingUnit._handle_single_message`.  `parsed` is the result of
`GeminiClient.parse_signal_message` (`none` on extraction failure, which the
parser absorbs and reports as `None`); `priceNow` the result of
`get_symbol_price` at admission time; `clientSend` the behaviour of the
target-channel client send.  Mutations performed before an exception
(cancellation of a superseded trade, registry deletion) persist in the
result, exactly as in Python. -/
def handle_single_message (reg : Registry) (processedIds : List Nat) (msgId : Nat)
    (parsed : Option SignalData) (priceNow : Option ℚ) (clientSend : Option Nat) :
    HandleResult :=
  let markOnly : HandleResult :=
    { registry := reg, processed := processedIds ++ [msgId], cancels := [],
      admitted := none, error := none }
  let proceed : Registry → List Nat → SignalData → HandleResult :=
    fun reg1 cancels pd =>
      match target_save_message clientSend with
      | .error e =>
        { registry := reg1, processed := processedIds, cancels := cancels,
          admitted := none, error := some e }
      | .ok (some sentId) =>
        match Trade.init sentId pd priceNow with
        | .error e =>
          { registry := reg1, processed := processedIds, cancels := cancels,
            admitted := none, error := some e }
        | .ok t =>
          { registry := add_trade reg1 t, processed := processedIds ++ [msgId],
            cancels := cancels, admitted := some t, error := none }
      | .ok none =>
        { registry := reg1, processed := processedIds ++ [msgId], cancels := cancels,
          admitted := none, error := none }
  match parsed with
  | some pd =>
    if pd.is_signal then
      match lookup_trade reg pd.symbol with
      | some existing =>
        if existing.status = .pending_entry then
          proceed (del_symbol reg pd.symbol) [existing.message_id] pd
        else
          { registry := reg, processed := processedIds ++ [msgId], cancels := [],
            admitted := none, error := none }
      | none => proceed reg [] pd
    else markOnly
  | none => markOnly

/-- Registries reachable from the empty registry through the operations the
code performs on `active_trades`: admission-pipeline message handling and
monitoring cycles (over arbitrary external behaviours). -/
inductive Reachable : Registry → Prop where
  | init : Reachable []
  | admission (reg : Registry) (processedIds : List Nat) (msgId : Nat)
      (parsed : Option SignalData) (priceNow : Option ℚ) (clientSend : Option Nat) :
      Reachable reg →
      Reachable (handle_single_message reg processedIds msgId parsed priceNow clientSend).registry
  | monitor (reg : Registry) (feed : String → Option ℚ) :
      Reachable reg → Reachable (run_monitoring_cycle reg feed).1

/-- The exit decision exactly as worded by the specification (section 4.1,
exit phase): strict priority stop-loss (only while TP1 unhit), then TP2 if
configured, then TP1 if configured and not already hit (final only when no
TP2), then breakeven (only if TP2 configured and TP1 hit).  Written from the
spec for comparison with `check_exit_hit`. -/
def exit_priority_spec (t : Trade) (p : ℚ) : Option ExitStatus :=
  match t.direction with
  | .long =>
    if t.tp1_hit = false ∧ p ≤ t.sl then some .SL
    else if t.tp2.any (fun v => decide (p ≥ v)) then some .TP2
    else if t.tp1_hit = false ∧ t.tp1.any (fun v => decide (p ≥ v)) then
      if t.tp2.isSome then some .TP1 else some .TP1_FINAL
    else if t.tp2.isSome ∧ t.tp1_hit = true ∧ p ≤ t.entry then some .BREAKEVEN
    else none
  | .short =>
    if t.tp1_hit = false ∧ p ≥ t.sl then some .SL
    else if t.tp2.any (fun v => decide (p ≤ v)) then some .TP2
    else if t.tp1_hit = false ∧ t.tp1.any (fun v => decide (p ≤ v)) then
      if t.tp2.isSome then some .TP1 else some .TP1_FINAL
    else if t.tp2.isSome ∧ t.tp1_hit = true ∧ p ≥ t.entry then some .BREAKEVEN
    else none
  | .unknown => none

/-- A concrete parsed LONG signal (entry 100, stop 95, TP1 110, TP2 120 on
symbol US30) used for concrete evaluations of the pipeline. -/
def sigLong : SignalData :=
  { is_signal := true, symbol := "US30", entry_price := 100, sl := 95,
    tp1 := some 110, tp2 := some 120 }

/-- A concrete PENDING_ENTRY trade registered for US30. -/
def oldTrade : Trade :=
  { message_id := 42, symbol := "US30", entry := 101, sl := 96, tp1 := none, tp2 := none,
    direction := .long, status := .pending_entry, tp1_hit := false,
    entry_executed_price := none, entry_confirmation_count := 0,
    signal_price := some 101, waiting_for_pullback := false }

/-- A concrete ACTIVE LONG trade whose TP2 sits below its stop-loss, so a
single sample can satisfy the stop-loss and TP2 conditions at once. -/
def degTrade : Trade :=
  { message_id := 2, symbol := "US30", entry := 100, sl := 95, tp1 := some 110,
    tp2 := some 90, direction := .long, status := .active, tp1_hit := false,
    entry_executed_price := some 100, entry_confirmation_count := 3,
    signal_price := some 100, waiting_for_pullback := false }

/-- A concrete PENDING_ENTRY LONG trade not awaiting pullback. -/
def pendTrade : Trade :=
  { message_id := 3, symbol := "US30", entry := 100, sl := 95, tp1 := some 110,
    tp2 := some 120, direction := .long, status := .pending_entry, tp1_hit := false,
    entry_executed_price := none, entry_confirmation_count := 0,
    signal_price := some 100, waiting_for_pullback := false }

/-- A concrete PENDING_ENTRY LONG trade awaiting pullback. -/
def pbTrade : Trade :=
  { message_id := 4, symbol := "US30", entry := 100, sl := 95, tp1 := some 110,
    tp2 := some 120, direction := .long, status := .pending_entry, tp1_hit := false,
    entry_executed_price := none, entry_confirmation_count := 0,
    signal_price := some 106, waiting_for_pullback := true }

/-- A concrete ACTIVE LONG trade with only TP1 configured. -/
def btTrade : Trade :=
  { message_id := 5, symbol := "US30", entry := 100, sl := 95, tp1 := some 110,
    tp2 := none, direction := .long, status := .active, tp1_hit := false,
    entry_executed_price := some 100, entry_confirmation_count := 3,
    signal_price := some 100, waiting_for_pullback := false }

end TradeRelay

namespace TradeRelay

lemma check_entry_hit_tp2 (u : Trade) (q : ℚ) : (check_entry_hit u q).1.tp2 = u.tp2 := by
  unfold check_entry_hit
  cases hd : u.direction <;> simp only [hd] <;> split_ifs <;> rfl

lemma check_exit_hit_tp2 (u : Trade) (q : ℚ) : (check_exit_hit u q).2.tp2 = u.tp2 := by
  unfold check_exit_hit
  cases hd : u.direction <;> simp only [hd] <;> split_ifs <;> rfl

lemma check_exit_hit_status (u : Trade) (q : ℚ) : (check_exit_hit u q).2.status = u.status := by
  unfold check_exit_hit
  cases hd : u.direction <;> simp only [hd] <;> split_ifs <;> rfl

lemma process_trade_tp2 (u : Trade) (q : ℚ) : (process_trade u q).1.tp2 = u.tp2 := by
  unfold process_trade
  cases hs : u.status
  · simp only [hs]
    split_ifs <;> simp [check_entry_hit_tp2]
  · simp only [hs]
    rcases h : (check_exit_hit u q).1 with _ | st
    · simp [h, check_exit_hit_tp2]
    · cases st <;> simp [h, check_exit_hit_tp2]

lemma check_entry_hit_long_nopb (t : Trade) (p : ℚ)
    (hdir : t.direction = .long) (hpb : t.waiting_for_pullback = false) :
    check_entry_hit t p =
      if t.entry - price_tolerance t.symbol ≤ p then
        ({ t with entry_confirmation_count := t.entry_confirmation_count + 1 },
         decide (t.entry_confirmation_count + 1 ≥ ENTRY_CONFIRM_TICKS))
      else
        ({ t with entry_confirmation_count := 0 }, decide (0 ≥ ENTRY_CONFIRM_TICKS)) := by
  unfold check_entry_hit
  rw [hdir]
  simp only [hpb, Bool.false_eq_true, if_false, ge_iff_le]
  split_ifs <;> rfl

lemma check_entry_hit_long_pb (t : Trade) (p : ℚ)
    (hdir : t.direction = .long) (hpb : t.waiting_for_pullback = true) :
    check_entry_hit t p =
      if p ≤ t.entry + price_tolerance t.symbol then
        ({ t with waiting_for_pullback := false,
                  entry_confirmation_count := t.entry_confirmation_count + 1 },
         decide (t.entry_confirmation_count + 1 ≥ ENTRY_CONFIRM_TICKS))
      else
        ({ t with entry_confirmation_count := 0 }, decide (0 ≥ ENTRY_CONFIRM_TICKS)) := by
  unfold check_entry_hit
  rw [hdir]
  simp only [hpb, if_true]
  split_ifs <;> rfl

lemma check_entry_hit_short_nopb (t : Trade) (p : ℚ)
    (hdir : t.direction = .short) (hpb : t.waiting_for_pullback = false) :
    check_entry_hit t p =
      if p ≤ t.entry + price_tolerance t.symbol then
        ({ t with entry_confirmation_count := t.entry_confirmation_count + 1 },
         decide (t.entry_confirmation_count + 1 ≥ ENTRY_CONFIRM_TICKS))
      else
        ({ t with entry_confirmation_count := 0 }, decide (0 ≥ ENTRY_CONFIRM_TICKS)) := by
  unfold check_entry_hit
  rw [hdir]
  simp only [hpb, Bool.false_eq_true, if_false, ge_iff_le]
  split_ifs <;> rfl

lemma check_entry_hit_short_pb (t : Trade) (p : ℚ)
    (hdir : t.direction = .short) (hpb : t.waiting_for_pullback = true) :
    check_entry_hit t p =
      if t.entry - price_tolerance t.symbol ≤ p then
        ({ t with waiting_for_pullback := false,
                  entry_confirmation_count := t.entry_confirmation_count + 1 },
         decide (t.entry_confirmation_count + 1 ≥ ENTRY_CONFIRM_TICKS))
      else
        ({ t with entry_confirmation_count := 0 }, decide (0 ≥ ENTRY_CONFIRM_TICKS)) := by
  unfold check_entry_hit
  rw [hdir]
  simp only [hpb, if_true, ge_iff_le]
  split_ifs <;> rfl

lemma process_trade_pending (t : Trade) (p : ℚ) (hst : t.status = .pending_entry) :
    process_trade t p =
      if (check_entry_hit t p).2 then
        ({ (check_entry_hit t p).1 with status := .active, entry_executed_price := some p },
         some "EXECUTED", false)
      else ((check_entry_hit t p).1, none, false) := by
  unfold process_trade
  rw [hst]

lemma trade_init_some_ok (msgId : Nat) (data : SignalData) (p : ℚ) :
    ∃ t, Trade.init msgId data (some p) = .ok t := by
  unfold Trade.init
  cases hd : determine_direction data.entry_price data.sl <;> simp [hd]

lemma cycle_entry_symbol (feed : String → Option ℚ) (e : String × Trade) :
    (cycle_entry feed e).symbol = e.1 := by
  unfold cycle_entry
  cases feed e.1 <;> rfl

lemma key_unique {reg : Registry} (h : (reg.map Prod.fst).Nodup) {s : String} {t u : Trade}
    (h1 : (s, t) ∈ reg) (h2 : (s, u) ∈ reg) : t = u := by
  induction reg with
  | nil => cases h1
  | cons e rest ih =>
    rw [List.map_cons, List.nodup_cons] at h
    rcases h with ⟨hnotin, hrest⟩
    rcases List.mem_cons.mp h1 with h1 | h1 <;> rcases List.mem_cons.mp h2 with h2 | h2
    · exact (Prod.ext_iff.mp (h1.trans h2.symm)).2
    · exfalso
      apply hnotin
      rw [← h1]
      show s ∈ rest.map Prod.fst
      exact List.mem_map_of_mem Prod.fst h2
    · exfalso
      apply hnotin
      rw [← h2]
      show s ∈ rest.map Prod.fst
      exact List.mem_map_of_mem Prod.fst h1
    · exact ih hrest h1 h2

lemma cycle_entry_unique {reg : Registry} (feed : String → Option ℚ)
    (hnodup : (reg.map Prod.fst).Nodup) {s : String} {t : Trade} (hmem : (s, t) ∈ reg)
    {x : Processed} (hx : x ∈ reg.map (cycle_entry feed)) (hxs : x.symbol = s) :
    x = cycle_entry feed (s, t) := by
  rcases List.mem_map.mp hx with ⟨e, he, rfl⟩
  have hes : e.1 = s := by rw [← cycle_entry_symbol feed e]; exact hxs
  have he2 : (e.1, e.2) ∈ reg := by simpa using he
  rw [hes] at he2
  have ht : e.2 = t := key_unique hnodup he2 hmem
  have hed : e = (s, t) := by
    cases e
    simp_all
  rw [hed]

end TradeRelay

namespace TradeRelay

lemma add_trade_nodup {reg : Registry} (t : Trade)
    (h : (reg.map Prod.fst).Nodup) : ((add_trade reg t).map Prod.fst).Nodup := by
  unfold add_trade
  split_ifs with hc
  · have : (reg.map (fun e => if e.1 = t.symbol then (t.symbol, t) else e)).map Prod.fst
        = reg.map Prod.fst := by
      rw [List.map_map]
      apply List.map_congr_left
      intro e _
      by_cases he : e.1 = t.symbol
      · simp [he]
      · simp [he]
    rw [this]
    exact h
  · have hc' : ∀ x : Trade, (t.symbol, x) ∉ reg := by simpa using hc
    have hnot : t.symbol ∉ reg.map Prod.fst := by
      intro hin
      rcases List.mem_map.mp hin with ⟨e, he, hes⟩
      apply hc' e.2
      have hed : e = (t.symbol, e.2) := by
        cases e
        simp_all
      rw [← hed]
      exact he
    rw [List.map_append]
    simp only [List.map_cons, List.map_nil]
    rw [List.nodup_append]
    refine ⟨h, List.nodup_singleton _, ?_⟩
    intro a ha hb
    simp at hb
    rw [hb] at ha
    exact hnot ha

lemma del_symbol_nodup {reg : Registry} (s : String)
    (h : (reg.map Prod.fst).Nodup) : ((del_symbol reg s).map Prod.fst).Nodup := by
  unfold del_symbol
  exact List.Nodup.sublist (List.Sublist.map Prod.fst (List.filter_sublist reg)) h

lemma handle_nodup (reg : Registry) (ids : List Nat) (msgId : Nat)
    (parsed : Option SignalData) (priceNow : Option ℚ) (clientSend : Option Nat)
    (h : (reg.map Prod.fst).Nodup) :
    (((handle_single_message reg ids msgId parsed priceNow clientSend).registry).map
      Prod.fst).Nodup := by
  unfold handle_single_message
  rcases parsed with _ | pd
  · exact h
  · by_cases hsig : pd.is_signal = true
    · simp only [hsig, if_true]
      rcases hl : lookup_trade reg pd.symbol with _ | ex
      · rcases hcs : target_save_message clientSend with e | r
        · simpa [hcs] using h
        · rcases r with _ | sid
          · simpa [hcs] using h
          · rcases hti : Trade.init sid pd priceNow with e | tt
            · simpa [hcs, hti] using h
            · simpa [hcs, hti] using add_trade_nodup tt h
      · by_cases hp : ex.status = Status.pending_entry
        · simp only [hp, if_true]
          rcases hcs : target_save_message clientSend with e | r
          · simpa [hcs] using del_symbol_nodup pd.symbol h
          · rcases r with _ | sid
            · simpa [hcs] using del_symbol_nodup pd.symbol h
            · rcases hti : Trade.init sid pd priceNow with e | tt
              · simpa [hcs, hti] using del_symbol_nodup pd.symbol h
              · simpa [hcs, hti] using add_trade_nodup tt (del_symbol_nodup pd.symbol h)
        · simpa [hp] using h
    · simp only [hsig]
      simpa [hsig] using h

lemma cycle_keys_sublist (reg : Registry) (feed : String → Option ℚ) :
    List.Sublist ((run_monitoring_cycle reg feed).1.map Prod.fst) (reg.map Prod.fst) := by
  unfold run_monitoring_cycle
  simp only [List.map_map]
  have h1 : (reg.map (cycle_entry feed)).map (fun x => x.symbol) = reg.map Prod.fst := by
    rw [List.map_map]
    apply List.map_congr_left
    intro e _
    exact cycle_entry_symbol feed e
  have h2 : ∀ (l : List Processed),
      l.map (Prod.fst ∘ (fun x => (x.symbol, x.trade))) = l.map (fun x => x.symbol) := by
    intro l
    apply List.map_congr_left
    intro x _
    rfl
  rw [h2, ← h1]
  exact List.Sublist.map _ (List.filter_sublist _)

lemma cycle_nodup (reg : Registry) (feed : String → Option ℚ)
    (h : (reg.map Prod.fst).Nodup) :
    ((run_monitoring_cycle reg feed).1.map Prod.fst).Nodup :=
  List.Nodup.sublist (cycle_keys_sublist reg feed) h

lemma cycle_removes_terminal (reg : Registry) (feed : String → Option ℚ)
    (s : String) (t : Trade) (p : ℚ)
    (hmem : (s, t) ∈ reg) (hfeed : feed s = some p)
    (hterm : (process_trade t p).2.2 = true) :
    s ∉ ((run_monitoring_cycle reg feed).1.map Prod.fst) := by
  intro hcon
  have hx : cycle_entry feed (s, t) =
      ⟨s, (process_trade t p).1, (process_trade t p).2.1, true⟩ := by
    unfold cycle_entry
    show (match feed s with
      | none => ({ symbol := s, trade := t, notify := none, remove := false } : Processed)
      | some q => { symbol := s, trade := (process_trade t q).1,
                    notify := (process_trade t q).2.1, remove := (process_trade t q).2.2 }) = _
    rw [hfeed]
    simp [hterm]
  have hrem : s ∈ ((reg.map (cycle_entry feed)).filter (fun x => x.remove)).map
      (fun x => x.symbol) := by
    apply List.mem_map.mpr
    refine ⟨⟨s, (process_trade t p).1, (process_trade t p).2.1, true⟩, ?_, rfl⟩
    apply List.mem_filter.mpr
    constructor
    · rw [← hx]
      exact List.mem_map_of_mem (cycle_entry feed) hmem
    · rfl
  unfold run_monitoring_cycle at hcon
  simp only [List.map_map] at hcon
  rcases List.mem_map.mp hcon with ⟨x, hxmem, hxs⟩
  rcases List.mem_filter.mp hxmem with ⟨_, hxfilt⟩
  have hxs' : x.symbol = s := hxs
  rw [hxs'] at hxfilt
  simp only [decide_eq_true_eq] at hxfilt
  exact hxfilt hrem

end TradeRelay

namespace TradeRelay

/-- C1: in every reachable state the registry holds at most one trade per
symbol (its key list is duplicate-free; every registered trade is non-terminal
by construction, since the code stores only PENDING_ENTRY and ACTIVE states),
and any trade whose processing during a monitoring cycle yields a terminal
outcome (the removal flag) is absent from the registry at the end of that
cycle. -/
theorem registry_per_symbol_invariant (reg : Registry) (h : Reachable reg) :
    ((reg.map Prod.fst).Nodup) ∧
    (∀ (feed : String → Option ℚ) (s : String) (t : Trade) (p : ℚ),
      (s, t) ∈ reg → feed s = some p → (process_trade t p).2.2 = true →
      s ∉ ((run_monitoring_cycle reg feed).1.map Prod.fst)) := by
  have hnd : (reg.map Prod.fst).Nodup := by
    induction h with
    | init => simp
    | admission reg ids msgId parsed priceNow clientSend _ ih =>
        exact handle_nodup reg ids msgId parsed priceNow clientSend ih
    | monitor reg feed _ ih => exact cycle_nodup reg feed ih
  exact ⟨hnd, fun feed s t p hmem hfeed hterm =>
    cycle_removes_terminal reg feed s t p hmem hfeed hterm⟩

theorem registry_per_symbol_invariant_witness :
    (((handle_single_message [] [] 5 (some sigLong) (some 100) (some 7)).registry).map
      Prod.fst).Nodup :=
  (registry_per_symbol_invariant _ (Reachable.admission _ _ _ _ _ _ Reachable.init)).1

/-- C2: for an ACTIVE trade a price sample produces at most one exit status
(the function returns a single optional status), and that status is exactly
the one prescribed by the spec's strict priority order — stop-loss (eligible
only while tp1Hit is false), then TP2 if configured, then TP1 if configured
and not already hit, then breakeven — provided configured take-profit levels
are nonzero (a zero level is falsy in Python and treated as unconfigured).
In particular, for a LONG trade with TP1 and TP2 configured and tp1Hit false,
a sample at or below the stop-loss and at or above TP2 resolves as a
stop-loss exit. -/
theorem exit_priority_order (t : Trade) (p : ℚ)
    (h1 : t.tp1 ≠ some 0) (h2 : t.tp2 ≠ some 0) :
    (check_exit_hit t p).1 = exit_priority_spec t p ∧
    (∀ (u : Trade) (q a b : ℚ), u.direction = .long → u.tp1 = some a → u.tp2 = some b →
      u.tp1_hit = false → q ≤ u.sl → b ≤ q → (check_exit_hit u q).1 = some .SL) := by
  constructor
  · rcases hd : t.direction <;>
      rcases htp1 : t.tp1 with _ | v <;>
      rcases htp2 : t.tp2 with _ | w <;>
      simp_all [check_exit_hit, exit_priority_spec, tp_trig_long, tp_trig_short] <;>
      split_ifs <;> simp_all
  · intro u q a b hdir htp1 htp2 hhit hsl htp
    simp [check_exit_hit, hdir, hhit, hsl]

theorem exit_priority_order_witness : (check_exit_hit degTrade 92).1 = some .SL :=
  (exit_priority_order degTrade 92 (by simp [degTrade]) (by simp [degTrade])).2
    degTrade 92 110 90 rfl rfl rfl rfl (by norm_num [degTrade]) (by norm_num [degTrade])

end TradeRelay

namespace TradeRelay

/-- C3: while a trade is PENDING_ENTRY, a sample inside the
direction-appropriate tolerance band (ENTRY_TOLERANCE_PIPS times the symbol's
pip value, with the default pip value for symbols missing from the table)
increments the confirmation counter; any single non-confirming sample resets
it to 0; the trade becomes ACTIVE with executedEntryPrice equal to the sample
exactly when the updated counter reaches ENTRY_CONFIRM_TICKS, emitting an
EXECUTED notification; below the threshold it stays PENDING_ENTRY with no
notification, so fewer consecutive confirming samples never trigger entry. -/
theorem entry_debounce (t : Trade) (p : ℚ)
    (hst : t.status = .pending_entry) :
    (t.direction = .long → t.waiting_for_pullback = false →
      ((t.entry - price_tolerance t.symbol ≤ p →
         (check_entry_hit t p).1.entry_confirmation_count = t.entry_confirmation_count + 1 ∧
         (t.entry_confirmation_count + 1 ≥ ENTRY_CONFIRM_TICKS →
           (process_trade t p).1.status = .active ∧
           (process_trade t p).1.entry_executed_price = some p ∧
           (process_trade t p).2.1 = some "EXECUTED") ∧
         (t.entry_confirmation_count + 1 < ENTRY_CONFIRM_TICKS →
           (process_trade t p).1.status = .pending_entry ∧
           (process_trade t p).2.1 = none)) ∧
       (¬ t.entry - price_tolerance t.symbol ≤ p →
         (check_entry_hit t p).1.entry_confirmation_count = 0 ∧
         (process_trade t p).1.status = .pending_entry ∧
         (process_trade t p).2.1 = none))) ∧
    (t.direction = .short → t.waiting_for_pullback = false →
      ((p ≤ t.entry + price_tolerance t.symbol →
         (check_entry_hit t p).1.entry_confirmation_count = t.entry_confirmation_count + 1 ∧
         (t.entry_confirmation_count + 1 ≥ ENTRY_CONFIRM_TICKS →
           (process_trade t p).1.status = .active ∧
           (process_trade t p).1.entry_executed_price = some p ∧
           (process_trade t p).2.1 = some "EXECUTED") ∧
         (t.entry_confirmation_count + 1 < ENTRY_CONFIRM_TICKS →
           (process_trade t p).1.status = .pending_entry ∧
           (process_trade t p).2.1 = none)) ∧
       (¬ p ≤ t.entry + price_tolerance t.symbol →
         (check_entry_hit t p).1.entry_confirmation_count = 0 ∧
         (process_trade t p).1.status = .pending_entry ∧
         (process_trade t p).2.1 = none))) ∧
    (process_trade t p).2.2 = false ∧
    price_tolerance t.symbol = ENTRY_TOLERANCE_PIPS * pipValue t.symbol ∧
    (∀ s : String, SYMBOL_PIP_VALUES.find? (fun e => e.1 == upperAscii s) = none →
      pipValue s = 1/10000) := by
  refine ⟨?_, ?_, ?_, rfl, ?_⟩
  · intro hdir hpb
    rw [process_trade_pending t p hst, check_entry_hit_long_nopb t p hdir hpb]
    constructor
    · intro hconf
      rw [if_pos hconf]
      refine ⟨rfl, ?_, ?_⟩
      · intro hge
        rw [if_pos (by simpa using hge)]
        exact ⟨rfl, rfl, rfl⟩
      · intro hlt
        rw [if_neg (by simpa using Nat.not_le.mpr hlt)]
        exact ⟨hst, rfl⟩
    · intro hnc
      rw [if_neg hnc]
      rw [if_neg (by simp [ENTRY_CONFIRM_TICKS])]
      exact ⟨rfl, hst, rfl⟩
  · intro hdir hpb
    rw [process_trade_pending t p hst, check_entry_hit_short_nopb t p hdir hpb]
    constructor
    · intro hconf
      rw [if_pos hconf]
      refine ⟨rfl, ?_, ?_⟩
      · intro hge
        rw [if_pos (by simpa using hge)]
        exact ⟨rfl, rfl, rfl⟩
      · intro hlt
        rw [if_neg (by simpa using Nat.not_le.mpr hlt)]
        exact ⟨hst, rfl⟩
    · intro hnc
      rw [if_neg hnc]
      rw [if_neg (by simp [ENTRY_CONFIRM_TICKS])]
      exact ⟨rfl, hst, rfl⟩
  · rw [process_trade_pending t p hst]
    split_ifs <;> rfl
  · intro s hfind
    simp [pipValue, hfind]

theorem entry_debounce_witness :
    (check_entry_hit pendTrade 96).1.entry_confirmation_count =
      pendTrade.entry_confirmation_count + 1 :=
  (((entry_debounce pendTrade 96 rfl).1 rfl rfl).1
    (by norm_num [pendTrade, price_tolerance, ENTRY_TOLERANCE_PIPS,
      show pipValue "US30" = 1 from rfl])).1

/-- C4: a breakeven exit fires only when TP2 is configured and tp1Hit is
already true; a trade whose TP2 is unset can never produce a breakeven exit
(and its TP2 field is never changed by monitoring), and when such a trade
with TP1 configured and not yet hit satisfies its TP1 condition without
triggering the stop-loss, its processing sends the TP1 notification and flags
the trade for terminal removal; once tp1Hit is true the stop-loss branch can
never fire again; and a non-final TP1 exit implies TP2 is configured, latches
tp1Hit, and leaves the trade ACTIVE and unflagged for removal. -/
theorem breakeven_reachability (t : Trade) (p v : ℚ)
    (hdir : t.direction = .long) (hst : t.status = .active)
    (htp1 : t.tp1 = some v) (hv : v ≠ 0) (htp2 : t.tp2 = none)
    (hhit : t.tp1_hit = false) (hp : v ≤ p) (hsl : ¬ p ≤ t.sl) :
    ((process_trade t p).2.1 = some "TP1" ∧ (process_trade t p).2.2 = true) ∧
    (∀ (u : Trade) (q : ℚ), (check_exit_hit u q).1 = some .BREAKEVEN →
        u.tp2.isSome = true ∧ u.tp1_hit = true) ∧
    (∀ (u : Trade) (q : ℚ), u.tp2 = none → (check_exit_hit u q).1 ≠ some .BREAKEVEN) ∧
    (∀ (u : Trade) (q : ℚ), (process_trade u q).1.tp2 = u.tp2) ∧
    (∀ (u : Trade) (q : ℚ), u.tp1_hit = true → (check_exit_hit u q).1 ≠ some .SL) ∧
    (∀ (u : Trade) (q : ℚ), (check_exit_hit u q).1 = some .TP1 →
        u.tp2.isSome = true ∧ (check_exit_hit u q).2.tp1_hit = true ∧
        (u.status = .active → (process_trade u q).2.2 = false ∧
          (process_trade u q).1.tp1_hit = true ∧ (process_trade u q).1.status = .active)) := by
  refine ⟨?_, ?_, ?_, fun u q => process_trade_tp2 u q, ?_, ?_⟩
  · simp [process_trade, hst, check_exit_hit, hdir, hhit, hsl, htp2, tp_trig_long, htp1, hv, hp]
  · intro u q h
    unfold check_exit_hit at h
    cases hd : u.direction <;> simp only [hd] at h <;> (try split_ifs at h) <;> simp_all
  · intro u q h2 h
    unfold check_exit_hit at h
    cases hd : u.direction <;> simp only [hd] at h <;> (try split_ifs at h) <;> simp_all
  · intro u q h
    unfold check_exit_hit
    cases hd : u.direction <;> simp only [hd] <;> (try split_ifs) <;> simp_all
  · intro u q h
    have hbase : u.tp2.isSome = true ∧ (check_exit_hit u q).2.tp1_hit = true := by
      unfold check_exit_hit at h ⊢
      cases hd : u.direction <;> simp only [hd] at h ⊢ <;> (try split_ifs at h ⊢) <;> simp_all
    refine ⟨hbase.1, hbase.2, fun hact => ?_⟩
    unfold process_trade
    simp only [hact, h]
    simp [check_exit_hit_status, hact, hbase.2]

theorem breakeven_reachability_witness : (process_trade btTrade 111).2.2 = true :=
  (breakeven_reachability btTrade 111 110 rfl rfl rfl (by norm_num) rfl rfl
    (by norm_num [btTrade]) (by norm_num [btTrade])).1.2

end TradeRelay

namespace TradeRelay

/-- C5: a trade created at admission with an available price sample has
awaitingPullback true exactly when the price already lies strictly beyond the
stated entry in the trade's favor (strictly above entry for LONG, strictly
below for SHORT); while a LONG trade awaits pullback a sample is confirming
exactly when it is at most entry plus tolerance, and such a sample clears the
pullback flag while incrementing the confirmation counter, whereas a
non-qualifying sample resets the counter to 0; SHORT is the mirror image. -/
theorem pullback_policy (msgId : Nat) (data : SignalData) (p : ℚ) :
    (∀ t : Trade, Trade.init msgId data (some p) = .ok t →
      t.direction = determine_direction data.entry_price data.sl ∧
      t.entry = data.entry_price ∧
      (t.waiting_for_pullback = true ↔
        (t.direction = .long ∧ t.entry < p) ∨ (t.direction = .short ∧ p < t.entry))) ∧
    (∀ (u : Trade) (q : ℚ), u.direction = .long → u.waiting_for_pullback = true →
      ((q ≤ u.entry + price_tolerance u.symbol →
         (check_entry_hit u q).1.waiting_for_pullback = false ∧
         (check_entry_hit u q).1.entry_confirmation_count = u.entry_confirmation_count + 1) ∧
       (¬ q ≤ u.entry + price_tolerance u.symbol →
         (check_entry_hit u q).1.entry_confirmation_count = 0))) ∧
    (∀ (u : Trade) (q : ℚ), u.direction = .short → u.waiting_for_pullback = true →
      ((u.entry - price_tolerance u.symbol ≤ q →
         (check_entry_hit u q).1.waiting_for_pullback = false ∧
         (check_entry_hit u q).1.entry_confirmation_count = u.entry_confirmation_count + 1) ∧
       (¬ u.entry - price_tolerance u.symbol ≤ q →
         (check_entry_hit u q).1.entry_confirmation_count = 0))) := by
  refine ⟨?_, ?_, ?_⟩
  · intro t h
    cases hd : determine_direction data.entry_price data.sl <;>
      simp only [Trade.init, hd] at h <;>
      (try rw [Except.ok.injEq] at h) <;> subst h <;> simp [hd]
  · intro u q hdir hpb
    rw [check_entry_hit_long_pb u q hdir hpb]
    constructor
    · intro hc
      rw [if_pos hc]
      exact ⟨rfl, rfl⟩
    · intro hnc
      rw [if_neg hnc]
  · intro u q hdir hpb
    rw [check_entry_hit_short_pb u q hdir hpb]
    constructor
    · intro hc
      rw [if_pos hc]
      exact ⟨rfl, rfl⟩
    · intro hnc
      rw [if_neg hnc]

theorem pullback_policy_witness :
    (check_entry_hit pbTrade 99).1.waiting_for_pullback = false :=
  (((pullback_policy 4 sigLong 100).2.1 pbTrade 99 rfl rfl).1
    (by norm_num [pbTrade, price_tolerance, ENTRY_TOLERANCE_PIPS,
      show pipValue "US30" = 1 from rfl])).1

/-- C6: when an extracted signal's symbol matches a PENDING_ENTRY trade in
the registry, handling sends a cancellation reply threaded to that trade's
origin message, removes it, marks the message processed and admits the new
signal (registering the trade built from the sent message's id and the
sampled price); when the matching trade is ACTIVE, handling returns with the
registry unchanged, the message marked processed, and no cancellation, no
admission and no error. -/
theorem supersede_vs_reject (reg : Registry) (ids : List Nat) (msgId sentId : Nat)
    (pd : SignalData) (pNow : ℚ) (old : Trade)
    (hsig : pd.is_signal = true)
    (hlook : lookup_trade reg pd.symbol = some old)
    (hpend : old.status = .pending_entry) :
    ((handle_single_message reg ids msgId (some pd) (some pNow) (some sentId)).cancels
        = [old.message_id] ∧
     (handle_single_message reg ids msgId (some pd) (some pNow) (some sentId)).error = none ∧
     (handle_single_message reg ids msgId (some pd) (some pNow) (some sentId)).processed
        = ids ++ [msgId] ∧
     (∃ t, Trade.init sentId pd (some pNow) = .ok t ∧
       (handle_single_message reg ids msgId (some pd) (some pNow) (some sentId)).admitted = some t ∧
       (handle_single_message reg ids msgId (some pd) (some pNow) (some sentId)).registry
          = add_trade (del_symbol reg pd.symbol) t)) ∧
    (∀ (reg' : Registry) (ids' : List Nat) (m : Nat) (pd' : SignalData) (pn : Option ℚ)
        (cs : Option Nat) (act : Trade),
      pd'.is_signal = true → lookup_trade reg' pd'.symbol = some act → act.status = .active →
      handle_single_message reg' ids' m (some pd') pn cs =
        { registry := reg', processed := ids' ++ [m], cancels := [], admitted := none,
          error := none }) := by
  constructor
  · obtain ⟨t, ht⟩ := trade_init_some_ok sentId pd pNow
    simp [handle_single_message, hsig, hlook, hpend, target_save_message, ht]
  · intro reg' ids' m pd' pn cs act hsig' hlook' hact
    have : ¬ act.status = Status.pending_entry := by rw [hact]; simp
    simp [handle_single_message, hsig', hlook', this]

theorem supersede_vs_reject_witness :
    (handle_single_message [("US30", oldTrade)] [] 7 (some sigLong) (some 100)
      (some 8)).cancels = [oldTrade.message_id] :=
  (supersede_vs_reject [("US30", oldTrade)] [] 7 8 sigLong 100 oldTrade rfl rfl rfl).1.1

/-- C7: if the price feed returns unavailable for a trade's symbol during a
monitoring cycle, that trade survives the cycle with its entire state (the
same Trade value — status, confirmation count, tp1Hit, pullback flag)
unchanged, and no notification is emitted for its symbol, while the rest of
the registry is processed as usual. -/
theorem unavailable_price_skips_trade (reg : Registry) (feed : String → Option ℚ)
    (s : String) (t : Trade)
    (hnodup : (reg.map Prod.fst).Nodup) (hmem : (s, t) ∈ reg) (hfeed : feed s = none) :
    (s, t) ∈ (run_monitoring_cycle reg feed).1 ∧
    ∀ ev ∈ (run_monitoring_cycle reg feed).2, ev.1 ≠ s := by
  have he : cycle_entry feed (s, t) = ⟨s, t, none, false⟩ := by
    unfold cycle_entry
    show (match feed s with
      | none => ({ symbol := s, trade := t, notify := none, remove := false } : Processed)
      | some p => _) = _
    rw [hfeed]
  have hp : (⟨s, t, none, false⟩ : Processed) ∈ reg.map (cycle_entry feed) := by
    rw [← he]
    exact List.mem_map_of_mem (cycle_entry feed) hmem
  have huniq : ∀ x ∈ reg.map (cycle_entry feed), x.symbol = s →
      x = (⟨s, t, none, false⟩ : Processed) := by
    intro x hx hxs
    rw [cycle_entry_unique feed hnodup hmem hx hxs, he]
  have hnotrem : s ∉ ((reg.map (cycle_entry feed)).filter (fun x => x.remove)).map
      (fun x => x.symbol) := by
    intro hcon
    rcases List.mem_map.mp hcon with ⟨x, hx, hxs⟩
    rcases List.mem_filter.mp hx with ⟨hx1, hx2⟩
    have := huniq x hx1 hxs
    rw [this] at hx2
    simp at hx2
  constructor
  · show (s, t) ∈ (((reg.map (cycle_entry feed)).filter
        (fun x => x.symbol ∉ ((reg.map (cycle_entry feed)).filter
          (fun x => x.remove)).map (fun x => x.symbol))).map (fun x => (x.symbol, x.trade)))
    apply List.mem_map.mpr
    refine ⟨⟨s, t, none, false⟩, ?_, rfl⟩
    apply List.mem_filter.mpr
    exact ⟨hp, by simpa using hnotrem⟩
  · intro ev hev heq
    show False
    have : ev ∈ (reg.map (cycle_entry feed)).filterMap
        (fun x => x.notify.map (fun str => (x.symbol, str))) := hev
    rcases List.mem_filterMap.mp this with ⟨x, hx, hmap⟩
    rcases Option.map_eq_some'.mp hmap with ⟨str, hstr, hpair⟩
    have hxs : x.symbol = s := by rw [← heq, ← hpair]
    have := huniq x hx hxs
    rw [this] at hstr
    cases hstr

theorem unavailable_price_skips_trade_witness :
    ("US30", oldTrade) ∈ (run_monitoring_cycle [("US30", oldTrade)] (fun _ => none)).1 :=
  (unavailable_price_skips_trade [("US30", oldTrade)] (fun _ => none) "US30" oldTrade
    (by simp) (by simp) rfl).1

end TradeRelay

namespace TradeRelay

/-- C8 fails on the code: when the price feed is unavailable at admission time
for a directional signal, `Trade.__init__` raises TypeError (None compared
with a float) before the message is marked processed, so the message id is
not appended to the processed set.  This theorem evaluates the pipeline at
such an input: the error escapes and the processed list stays empty. -/
theorem admission_price_unavailable_raises :
    handle_single_message [] [] 5 (some sigLong) none (some 7) =
      { registry := [], processed := [], cancels := [], admitted := none,
        error := some .typeError } := by
  norm_num [handle_single_message, lookup_trade, target_save_message, Trade.init,
    determine_direction, sigLong]

/-- C9 fails on the code: a target-channel send failure is not absorbed.
The except branch of `TargetChannel.save_message` returns the local variable
`message` that was never assigned, raising UnboundLocalError, which escapes
`_handle_single_message` (and would terminate the polling loop).  This
theorem evaluates the pipeline at such an input. -/
theorem send_failure_escapes_handler :
    handle_single_message [] [] 6 (some sigLong) (some 100) none =
      { registry := [], processed := [], cancels := [], admitted := none,
        error := some .unboundLocalError } := by
  norm_num [handle_single_message, lookup_trade, target_save_message, sigLong]

/-- C10 fails on the code: when the target-channel send fails during an
admission that superseded a PENDING_ENTRY trade, the old trade has already
been cancelled and removed and no new trade exists — but the message is NOT
marked processed, because `TargetChannel.save_message` raises
UnboundLocalError instead of returning a non-Message value, so the guarded
warning branch of `_handle_single_message` never runs.  This theorem
evaluates the pipeline at such an input: the registry is left empty, the
cancellation was sent, the processed list is unchanged, and the error
escapes. -/
theorem supersede_send_failure_drops_symbol :
    handle_single_message [("US30", oldTrade)] [] 7 (some sigLong) (some 100) none =
      { registry := [], processed := [], cancels := [42], admitted := none,
        error := some .unboundLocalError } := by
  norm_num [handle_single_message, lookup_trade, target_save_message, sigLong,
    oldTrade, del_symbol]

end TradeRelay
